import Mathlib

/-!
Shallow embedding of `src/deal_tracker.py` from the deal_tracker repository.

The SQLite database is modelled as an in-memory `Store`: two append-only
tables (`journal`, `deliverables`) kept in insertion order, with integer
primary keys assigned by an increasing counter starting at 1, as SQLite
does for `INTEGER PRIMARY KEY`.  The query
`SELECT id FROM deliverables WHERE deal_name=? AND description LIKE ?`
followed by `fetchone()` is modelled as taking the head of the list of
rows, in insertion order, that satisfy the SQL predicate (SQLite scans a
plain table in rowid order).  SQL `=` on nullable columns is
three-valued: `NULL = x` never holds, which `sqlEq` reflects.  SQL
`LIKE` is modelled faithfully: `%` matches any character sequence, `_`
matches exactly one character, and ordinary characters compare
case-insensitively on ASCII letters only (SQLite's default `LIKE`
behaviour, no ESCAPE clause).  Python's `str.strip()` is modelled by
`pyStrip`, and Python truthiness of an optional string
(`if depends_on_desc:`) by explicit `none` / empty-string tests.  The
interactive `click.confirm` of `store_deliverable` is a boolean decision
input, and the warning plus confirmation prompt emitted on a missing
dependency is recorded in the `prompted` flag of the result.  `ORDER BY
due_date` on a nullable TEXT column sorts `NULL` first and compares
strings bytewise, which on UTF-8 data coincides with codepoint
lexicographic order; it is modelled as a stable insertion sort by that
key.
-/

namespace DealTracker

/-- ASCII whitespace as recognised by Python's `str.strip()`. -/
def isPySpace (c : Char) : Bool :=
  c == ' ' || c == '\t' || c == '\n' || c == '\r' || c == '\x0b' || c == '\x0c'

/-- Python's `str.strip()`: drop whitespace from both ends. -/
def pyStrip (s : String) : String :=
  ⟨((s.toList.dropWhile isPySpace).reverse.dropWhile isPySpace).reverse⟩

/-- ASCII-only lower-casing, as used by SQLite's default `LIKE`. -/
def asciiLower (c : Char) : Char :=
  if 65 ≤ c.toNat && c.toNat ≤ 90 then Char.ofNat (c.toNat + 32) else c

/-- Does a pattern consisting only of `%` wildcards remain?  Such a
pattern (and only such a pattern) matches the empty string. -/
def allPct : List Char → Bool
  | [] => true
  | c :: ps => if c = '%' then allPct ps else false

/-- One step of `LIKE` matching against a non-empty string `c :: s`,
where `f` decides matching of an arbitrary pattern against the tail
`s`.  Structural recursion on the pattern. -/
def goLike (c : Char) (f : List Char → Bool) : List Char → Bool
  | [] => false
  | b :: ps =>
    if b = '%' then goLike c f ps || f ('%' :: ps)
    else if b = '_' then f ps
    else (asciiLower b == asciiLower c) && f ps

/-- Full `LIKE` matching, structurally recursive on the string: given the
string, return the predicate on patterns. -/
def likeStr : List Char → (List Char → Bool)
  | [] => allPct
  | c :: s => goLike c (likeStr s)

/-- Relation `likeM p s` is SQLite's `s LIKE p` on lists of characters. -/
def likeM (p s : List Char) : Bool := likeStr s p

/-- SQLite `s LIKE pattern` on strings. -/
def sqliteLike (pattern s : String) : Bool := likeM pattern.toList s.toList

/-- The pattern `f"%{x}%"` built by `store_deliverable` (line 74). -/
def likePattern (x : String) : String := "%" ++ x ++ "%"

/-- SQL `=` between nullable TEXT values: `NULL = x` is never true. -/
def sqlEq (a b : Option String) : Bool :=
  match a, b with
  | some x, some y => x == y
  | _, _ => false

/-- A row of the `deliverables` table (schema at lines 41-51 of
`deal_tracker.py`).  `deal_name`, `due_date` and `agent` are nullable;
every code path stores a proper string as `description`. -/
structure Deliverable where
  id : Nat
  deal_name : Option String
  description : String
  due_date : Option String
  agent : Option String
  depends_on_id : Option Nat
  deriving Repr, DecidableEq

/-- A row of the `journal` table (schema at lines 31-39); `timestamp`
is not modelled (no claim mentions it). -/
structure JournalRow where
  id : Nat
  deal_name : Option String
  entry_type : Option String
  raw_note : Option String
  deriving Repr, DecidableEq

/-- The SQLite database `deals.db`: both tables in insertion order plus
the next primary key of each. -/
structure Store where
  journal : List JournalRow
  deliverables : List Deliverable
  nextJournalId : Nat
  nextDeliverableId : Nat
  deriving Repr, DecidableEq

/-- A fresh database, as created by `init_db`. -/
def emptyStore : Store := ⟨[], [], 1, 1⟩

/-- The SQL predicate `deal_name=? AND description LIKE ?`. -/
def rowMatches (deal : Option String) (pattern : String) (r : Deliverable) : Bool :=
  sqlEq r.deal_name deal && sqliteLike pattern r.description

/-- All rows satisfying `deal_name=? AND description LIKE ?`, in
insertion order. -/
def matchingRows (st : Store) (deal : Option String) (pattern : String) :
    List Deliverable :=
  st.deliverables.filter (rowMatches deal pattern)

/-- The spec's `find_by_description(project_name, substring)`: rows of
the project whose description `LIKE`-matches `%substring%`. -/
def find_by_description (st : Store) (deal : Option String) (substr : String) :
    List Deliverable :=
  matchingRows st deal (likePattern substr)

/-- The `fetchone()` on the dependency lookup of `store_deliverable`
(lines 72-76): the first matching row's id, if any. -/
def findFirstMatch (st : Store) (deal : Option String) (pattern : String) :
    Option Nat :=
  (matchingRows st deal pattern).head?.map (fun r => r.id)

/-- SQL `INSERT INTO deliverables ...`: appends a row with the next id. -/
def insertDeliverable (st : Store) (deal : Option String) (desc : String)
    (due agent : Option String) (dep : Option Nat) : Store × Deliverable :=
  let row : Deliverable :=
    { id := st.nextDeliverableId, deal_name := deal, description := desc,
      due_date := due, agent := agent, depends_on_id := dep }
  ({ st with deliverables := st.deliverables ++ [row],
             nextDeliverableId := st.nextDeliverableId + 1 }, row)

/-- Outcome of resolving a dependency description (lines 70-88):
possibly updated store, resolved `depends_on_id`, whether the
missing-dependency warning and confirmation prompt were issued, and the
id of the placeholder row if one was auto-created. -/
structure ResolveResult where
  store : Store
  depId : Option Nat
  prompted : Bool
  placeholderId : Option Nat
  deriving Repr, DecidableEq

/-- The dependency-resolution block of `store_deliverable`
(lines 70-88).  Python's `if depends_on_desc:` is false exactly for
`None` and the empty string; the lookup pattern strips the description
but the placeholder stores it unstripped (line 86). -/
def resolveDependency (st : Store) (deal : Option String)
    (depends_on_desc : Option String) (confirm : Bool) : ResolveResult :=
  match depends_on_desc with
  | none => ⟨st, none, false, none⟩
  | some d =>
    if d = "" then ⟨st, none, false, none⟩
    else
      match findFirstMatch st deal (likePattern (pyStrip d)) with
      | some i => ⟨st, some i, false, none⟩
      | none =>
        if confirm then
          let p := insertDeliverable st deal d none none none
          ⟨p.1, some p.2.id, true, some p.2.id⟩
        else ⟨st, none, true, none⟩

/-- Result of `store_deliverable`: final store, the row inserted for
the deliverable itself, and the resolution bookkeeping. -/
structure StoreResult where
  store : Store
  mainRow : Deliverable
  prompted : Bool
  placeholderId : Option Nat
  deriving Repr, DecidableEq

/-- Function `store_deliverable` (lines 66-96): resolve the dependency
description, then insert the deliverable with the resolved id. -/
def store_deliverable (st : Store) (deal : Option String) (description : String)
    (due_date agent : Option String) (depends_on_desc : Option String)
    (confirm : Bool) : StoreResult :=
  let r := resolveDependency st deal depends_on_desc confirm
  let p := insertDeliverable r.store deal description due_date agent r.depId
  ⟨p.1, p.2, r.prompted, r.placeholderId⟩

/-- The extraction result consumed by `log` / `batch_log`
(`parse_and_distribute`): the fields read via `metadata.get`. -/
structure Metadata where
  deal_name : Option String
  entry_type : Option String
  notes : Option String
  deliverables : List String
  dates : List String
  agents : List String
  dependencies : List String
  deriving Repr, DecidableEq

/-- Function `store_journal_entry` (lines 56-64): inserts only `deal_name`,
`entry_type` and `raw_note`; the `tags` and `metadata` arguments are
accepted and dropped. -/
def store_journal_entry (st : Store) (deal_name entry_type raw_note : Option String)
    (tags : String) (metadata : Metadata) : Store :=
  { st with
    journal := st.journal ++
      [{ id := st.nextJournalId, deal_name := deal_name,
         entry_type := entry_type, raw_note := raw_note }],
    nextJournalId := st.nextJournalId + 1 }

/-- The per-task loop of `log` (lines 217-221) and `batch_log`
(lines 186-190), processing the tasks from position `i` on: each task
is zipped positionally with the date, agent and dependency lists
(`xs[i] if i < len(xs) else None`), stored, and the loop continues on
the store that now contains it.  Returns the final store and the main
row inserted for each task, in task order. -/
def ingestFrom (st : Store) (deal : Option String) (tasks : List String) (i : Nat)
    (dates agents deps : List String) (confirm : Nat → Bool) :
    Store × List Deliverable :=
  match tasks with
  | [] => (st, [])
  | t :: rest =>
    let r := store_deliverable st deal t dates[i]? agents[i]? deps[i]? (confirm i)
    let q := ingestFrom r.store deal rest (i + 1) dates agents deps confirm
    (q.1, r.mainRow :: q.2)

/-- The whole per-entry deliverable loop, starting at index 0. -/
def ingest (st : Store) (deal : Option String)
    (tasks dates agents deps : List String) (confirm : Nat → Bool) :
    Store × List Deliverable :=
  ingestFrom st deal tasks 0 dates agents deps confirm

/-- The body of the `log` command (lines 203-221) after extraction:
journal the note, then ingest the deliverables.  No validation of any
field happens before the journal insert. -/
def logOp (st : Store) (m : Metadata) (confirm : Nat → Bool) : Store :=
  let st1 := store_journal_entry st m.deal_name m.entry_type m.notes "" m
  (ingest st1 m.deal_name m.deliverables m.dates m.agents m.dependencies confirm).1

/-- Query `SELECT ... WHERE deal_name=?` for the schedule view (line 252). -/
def projectRows (st : Store) (project : String) : List Deliverable :=
  st.deliverables.filter (fun r => sqlEq r.deal_name (some project))

/-- Lexicographic order on character lists by codepoint, with a
proper prefix sorting first: this is SQLite's BINARY collation
(bytewise memcmp), which on UTF-8 data agrees with codepoint order. -/
def lexLe : List Char → List Char → Bool
  | [], _ => true
  | _ :: _, [] => false
  | a :: as, b :: bs => if a = b then lexLe as bs else decide (a < b)

/-- SQLite `ORDER BY due_date` key comparison on a nullable TEXT
column: `NULL` sorts before every string, strings compare bytewise. -/
def dueLe (a b : Option String) : Bool :=
  match a, b with
  | none, _ => true
  | some _, none => false
  | some x, some y => lexLe x.data y.data

/-- The `ORDER BY due_date` relation on deliverable rows. -/
def dueRel (a b : Deliverable) : Prop := dueLe a.due_date b.due_date = true

instance : DecidableRel dueRel :=
  fun a b => inferInstanceAs (Decidable (dueLe a.due_date b.due_date = true))

/-- The rows of the project as delivered by
`SELECT id, description, due_date, depends_on_id ... ORDER BY due_date`
(line 252), modelled as a stable sort by the due-date key. -/
def scheduleRows (st : Store) (project : String) : List Deliverable :=
  List.insertionSort dueRel (projectRows st project)

/-- The `dependency_lookup` dict built at lines 255-258; on duplicate
ids the last row wins, as for a Python dict. -/
def lookupDesc (rows : List Deliverable) (i : Nat) : Option String :=
  ((rows.filter (fun r => r.id == i)).getLast?).map (fun r => r.description)

/-- The `dep_note` string of line 266.  Python's `if dep_id:` is false
for `None` and for `0`. -/
def depNote (rows : List Deliverable) (r : Deliverable) : String :=
  match r.depends_on_id with
  | some d =>
    if d = 0 then ""
    else "  ← depends on: " ++ ((lookupDesc rows d).getD "Unknown")
  | none => ""

/-- Python's `x or default` for an optional string field: `None` and
the empty string both fall back. -/
def pyOr (s : Option String) (dflt : String) : String :=
  match s with
  | none => dflt
  | some x => if x = "" then dflt else x

/-- One printed line of the schedule (line 267):
`f"  {due or 'No date'}: {desc}{dep_note}"` without the leading
indentation. -/
def renderRow (rows : List Deliverable) (r : Deliverable) : String :=
  pyOr r.due_date "No date" ++ ": " ++ r.description ++ depNote rows r

/-- The per-project schedule view (lines 250-267): the lines printed,
one per deliverable of the project, in `ORDER BY due_date` order. -/
def scheduleProject (st : Store) (project : String) : List String :=
  (scheduleRows st project).map (renderRow (projectRows st project))

/-- Case-sensitive prefix comparison of character lists (used to state
the spec's reading of the matching rule in C1). -/
def csPref : List Char → List Char → Bool
  | [], _ => true
  | _ :: _, [] => false
  | a :: as, b :: bs => (a == b) && csPref as bs

/-- Case-sensitive literal substring containment, the relation the
spec sentence behind C1 describes. -/
def csContainsL (needle : List Char) : List Char → Bool
  | [] => needle.isEmpty
  | c :: rest => csPref needle (c :: rest) || csContainsL needle rest

/-- Case-insensitive (ASCII) prefix comparison of character lists. -/
def ciPref : List Char → List Char → Bool
  | [], _ => true
  | _ :: _, [] => false
  | a :: as, b :: bs => (asciiLower a == asciiLower b) && ciPref as bs

/-- Case-insensitive (ASCII) literal substring containment. -/
def ciContainsL (needle : List Char) : List Char → Bool
  | [] => needle.isEmpty
  | c :: rest => ciPref needle (c :: rest) || ciContainsL needle rest

/-- A character that is not a `LIKE` wildcard. -/
def noWild (c : Char) : Bool := !(c == '%' || c == '_')

/-- A string free of the `LIKE` wildcards `%` and `_`. -/
def wildFree (s : String) : Bool := s.toList.all noWild

/-- Modelled from the spec: the candidate set C1 asserts, namely rows
of the project whose description contains the trimmed dependency
description as a case-sensitive literal substring. -/
def specCandidates (st : Store) (deal : Option String) (d : String) :
    List Deliverable :=
  st.deliverables.filter
    (fun r =>
      sqlEq r.deal_name deal && csContainsL (pyStrip d).toList r.description.toList)

/-- The candidate set the code actually matches against: the rows the
`LIKE` query of `store_deliverable` returns. -/
def codeCandidates (st : Store) (deal : Option String) (d : String) :
    List Deliverable :=
  matchingRows st deal (likePattern (pyStrip d))

/-- Store for the C1 counterexample: one deliverable of project `P`
with an all-lower-case description. -/
def c1Store : Store := (insertDeliverable emptyStore (some "P") "draft nda" none none none).1

/-- Store for the C2 counterexample: one deliverable of project `P`. -/
def c2Store : Store := (insertDeliverable emptyStore (some "P") "target x" none none none).1

/-- Store for the C4 witness: two deliverables of project `P` whose
descriptions both contain `alpha`. -/
def c4Store : Store :=
  (insertDeliverable (insertDeliverable emptyStore (some "P") "alpha 1" none none none).1
    (some "P") "alpha 2" none none none).1

/-- Store for the C5 counterexample: an earlier row of project `P`
whose description strictly contains the description inserted next. -/
def c5Store : Store := (insertDeliverable emptyStore (some "P") "ab" none none none).1

/-- Extraction metadata with an empty project name, for C8. -/
def c8Meta : Metadata := ⟨some "", some "update", some "note text", ["t1"], [], [], []⟩

/-- Store for the C9 witness: one undated row, one dated row depending
on it, and one dated row with a dangling dependency id. -/
def c9Store : Store :=
  ⟨[],
   [⟨1, some "P", "Draft NDA", none, none, none⟩,
    ⟨2, some "P", "Sign NDA", some "2025-01-10", none, some 1⟩,
    ⟨3, some "P", "Review", some "2025-02-01", none, some 99⟩],
   1, 4⟩

theorem lexLe_total : ∀ x y : List Char, lexLe x y = true ∨ lexLe y x = true := by
  intro x
  induction x with
  | nil => intro y; exact Or.inl rfl
  | cons a as ih =>
    intro y
    cases y with
    | nil => exact Or.inr rfl
    | cons b bs =>
      by_cases hab : a = b
      · subst hab
        rcases ih bs with h | h
        · exact Or.inl (by simp [lexLe, h])
        · exact Or.inr (by simp [lexLe, h])
      · rcases lt_trichotomy a b with h | h | h
        · exact Or.inl (by simp [lexLe, hab, h])
        · exact absurd h hab
        · exact Or.inr (by simp [lexLe, Ne.symm hab, h])

theorem lexLe_trans : ∀ x y z : List Char,
    lexLe x y = true → lexLe y z = true → lexLe x z = true := by
  intro x
  induction x with
  | nil => intro y z _ _; rfl
  | cons a as ih =>
    intro y z hxy hyz
    cases y with
    | nil => exact absurd hxy (by simp [lexLe])
    | cons b bs =>
      cases z with
      | nil => exact absurd hyz (by simp [lexLe])
      | cons c cs =>
        by_cases hab : a = b <;> by_cases hbc : b = c
        · subst hab; subst hbc
          rw [lexLe, if_pos rfl] at hxy hyz ⊢
          exact ih bs cs hxy hyz
        · subst hab
          rw [lexLe, if_neg hbc] at hyz ⊢
          exact hyz
        · subst hbc
          rw [lexLe, if_neg hab] at hxy ⊢
          exact hxy
        · rw [lexLe, if_neg hab] at hxy
          rw [lexLe, if_neg hbc] at hyz
          have h1 : a < b := of_decide_eq_true hxy
          have h2 : b < c := of_decide_eq_true hyz
          have h3 : a < c := lt_trans h1 h2
          rw [lexLe, if_neg (ne_of_lt h3)]
          simp [h3]

instance : IsTotal Deliverable dueRel :=
  ⟨by
    intro a b
    unfold dueRel dueLe
    cases a.due_date with
    | none => exact Or.inl rfl
    | some x =>
      cases b.due_date with
      | none => exact Or.inr rfl
      | some y => exact lexLe_total x.data y.data⟩

instance : IsTrans Deliverable dueRel :=
  ⟨by
    intro a b c hab hbc
    unfold dueRel dueLe at hab hbc ⊢
    cases ha : a.due_date with
    | none => rfl
    | some x =>
      rw [ha] at hab
      cases hb : b.due_date with
      | none => rw [hb] at hab; exact absurd hab (by simp)
      | some y =>
        rw [hb] at hab hbc
        cases hc : c.due_date with
        | none => rw [hc] at hbc; exact absurd hbc (by simp)
        | some z =>
          rw [hc] at hbc
          exact lexLe_trans x.data y.data z.data hab hbc⟩

/-! Equational and semantic lemmas about the `LIKE` matcher. -/

theorem likeM_nil_str (p : List Char) : likeM p [] = allPct p := rfl

theorem likeM_nil_pat (c : Char) (s : List Char) : likeM [] (c :: s) = false := rfl

theorem likeM_cons_pct (ps : List Char) (c : Char) (s : List Char) :
    likeM ('%' :: ps) (c :: s) = (likeM ps (c :: s) || likeM ('%' :: ps) s) := by
  simp [likeM, likeStr, goLike]

theorem likeM_cons_us (ps : List Char) (c : Char) (s : List Char) :
    likeM ('_' :: ps) (c :: s) = likeM ps s := by
  simp [likeM, likeStr, goLike]

theorem likeM_cons_lit (b : Char) (ps : List Char) (c : Char) (s : List Char)
    (hb1 : b ≠ '%') (hb2 : b ≠ '_') :
    likeM (b :: ps) (c :: s) = ((asciiLower b == asciiLower c) && likeM ps s) := by
  simp [likeM, likeStr, goLike, hb1, hb2]

theorem allPct_pct (ps : List Char) : allPct ('%' :: ps) = allPct ps := by
  simp [allPct]

theorem allPct_lit (b : Char) (ps : List Char) (hb : b ≠ '%') :
    allPct (b :: ps) = false := by
  simp [allPct, hb]

theorem likeM_pct_univ (s : List Char) : likeM ['%'] s = true := by
  induction s with
  | nil => simp [likeM_nil_str, allPct]
  | cons c s ih => rw [likeM_cons_pct]; simp [ih]

theorem likeM_pct_of_suffix (ps t u : List Char) (h : likeM ps u = true) :
    likeM ('%' :: ps) (t ++ u) = true := by
  induction t with
  | nil =>
    cases u with
    | nil => simpa [likeM_nil_str, allPct_pct] using h
    | cons c u => rw [List.nil_append, likeM_cons_pct, h]; simp
  | cons c t ih => rw [List.cons_append, likeM_cons_pct, ih]; simp

theorem likeM_pct_iff (ps s : List Char) :
    likeM ('%' :: ps) s = true ↔ ∃ t u, s = t ++ u ∧ likeM ps u = true := by
  constructor
  · intro h
    induction s with
    | nil =>
      rw [likeM_nil_str, allPct_pct, ← likeM_nil_str] at h
      exact ⟨[], [], rfl, h⟩
    | cons c s ih =>
      rw [likeM_cons_pct, Bool.or_eq_true] at h
      rcases h with h | h
      · exact ⟨[], c :: s, rfl, h⟩
      · obtain ⟨t, u, heq, hu⟩ := ih h
        exact ⟨c :: t, u, by rw [heq, List.cons_append], hu⟩
  · rintro ⟨t, u, rfl, h⟩
    exact likeM_pct_of_suffix ps t u h

theorem likeM_self_pct (l : List Char) : likeM (l ++ ['%']) l = true := by
  induction l with
  | nil => simpa using likeM_pct_univ []
  | cons c l ih =>
    by_cases h1 : c = '%'
    · subst h1
      rw [List.cons_append, likeM_cons_pct]
      have : likeM ('%' :: (l ++ ['%'])) l = true := by
        simpa using likeM_pct_of_suffix (l ++ ['%']) [] l ih
      simp [this]
    · by_cases h2 : c = '_'
      · subst h2; rw [List.cons_append, likeM_cons_us]; exact ih
      · rw [List.cons_append, likeM_cons_lit c _ c l h1 h2]; simp [ih]

theorem noWild_spec (c : Char) (h : noWild c = true) : c ≠ '%' ∧ c ≠ '_' := by
  simp only [noWild, Bool.not_eq_eq_eq_not, Bool.not_true, Bool.or_eq_false_iff,
    beq_eq_false_iff_ne] at h
  exact h

theorem likeM_tail_pct_eq_ciPref (needle : List Char)
    (hw : needle.all noWild = true) (s : List Char) :
    likeM (needle ++ ['%']) s = ciPref needle s := by
  induction needle generalizing s with
  | nil => simp [likeM_pct_univ, ciPref]
  | cons b nd ih =>
    rw [List.all_cons, Bool.and_eq_true] at hw
    obtain ⟨hb1, hb2⟩ := noWild_spec b hw.1
    cases s with
    | nil =>
      rw [List.cons_append, likeM_nil_str, allPct_lit b _ hb1]
      rfl
    | cons c s =>
      rw [List.cons_append, likeM_cons_lit b _ c s hb1 hb2, ih hw.2 s]
      rfl

theorem ciContainsL_iff (needle s : List Char) :
    ciContainsL needle s = true ↔ ∃ t u, s = t ++ u ∧ ciPref needle u = true := by
  induction s with
  | nil =>
    constructor
    · intro h
      cases needle with
      | nil => exact ⟨[], [], rfl, rfl⟩
      | cons b nd => simp [ciContainsL] at h
    · rintro ⟨t, u, heq, hu⟩
      obtain ⟨ht, hu'⟩ := List.append_eq_nil.mp heq.symm
      subst ht; subst hu'
      cases needle with
      | nil => rfl
      | cons b nd => simp [ciPref] at hu
  | cons c rest ih =>
    constructor
    · intro h
      rw [show ciContainsL needle (c :: rest) =
            (ciPref needle (c :: rest) || ciContainsL needle rest) from rfl,
          Bool.or_eq_true] at h
      rcases h with h | h
      · exact ⟨[], c :: rest, rfl, h⟩
      · obtain ⟨t, u, heq, hu⟩ := ih.mp h
        exact ⟨c :: t, u, by rw [heq, List.cons_append], hu⟩
    · rintro ⟨t, u, heq, hu⟩
      show (ciPref needle (c :: rest) || ciContainsL needle rest) = true
      cases t with
      | nil =>
        rw [List.nil_append] at heq
        subst heq
        simp [hu]
      | cons b t =>
        rw [List.cons_append, List.cons.injEq] at heq
        have : ciContainsL needle rest = true := ih.mpr ⟨t, u, heq.2, hu⟩
        simp [this]

theorem likeM_pattern_eq_ciContainsL (needle : List Char)
    (hw : needle.all noWild = true) (s : List Char) :
    likeM ('%' :: (needle ++ ['%'])) s = ciContainsL needle s := by
  have hiff : likeM ('%' :: (needle ++ ['%'])) s = true ↔ ciContainsL needle s = true := by
    rw [likeM_pct_iff, ciContainsL_iff]
    constructor
    · rintro ⟨t, u, heq, hu⟩
      exact ⟨t, u, heq, by rw [← likeM_tail_pct_eq_ciPref needle hw u]; exact hu⟩
    · rintro ⟨t, u, heq, hu⟩
      exact ⟨t, u, heq, by rw [likeM_tail_pct_eq_ciPref needle hw u]; exact hu⟩
  cases h1 : likeM ('%' :: (needle ++ ['%'])) s <;>
    cases h2 : ciContainsL needle s <;> simp_all

theorem toList_likePattern (x : String) :
    (likePattern x).toList = '%' :: (x.toList ++ ['%']) := by
  show ("%" ++ x ++ "%").data = '%' :: (x.data ++ ['%'])
  rw [String.data_append, String.data_append]
  rfl

theorem sqliteLike_pattern (x s : String) :
    sqliteLike (likePattern x) s = likeM ('%' :: (x.toList ++ ['%'])) s.toList := by
  simp only [sqliteLike, toList_likePattern]

theorem sqliteLike_self (s : String) : sqliteLike (likePattern s) s = true := by
  rw [sqliteLike_pattern]
  simpa using likeM_pct_of_suffix (s.toList ++ ['%']) [] s.toList (likeM_self_pct s.toList)

/-! Structural lemmas about the store operations and the ingest loop. -/

theorem insertDeliverable_fst (st : Store) (deal : Option String) (desc : String)
    (due agent : Option String) (dep : Option Nat) :
    (insertDeliverable st deal desc due agent dep).1 =
      { st with
        deliverables := st.deliverables ++ [(insertDeliverable st deal desc due agent dep).2],
        nextDeliverableId := st.nextDeliverableId + 1 } := rfl

theorem resolveDependency_journal (st : Store) (deal : Option String)
    (dd : Option String) (c : Bool) :
    (resolveDependency st deal dd c).store.journal = st.journal ∧
      (resolveDependency st deal dd c).store.nextJournalId = st.nextJournalId := by
  unfold resolveDependency
  cases dd with
  | none => exact ⟨rfl, rfl⟩
  | some d =>
    dsimp only
    split
    · exact ⟨rfl, rfl⟩
    · split
      · exact ⟨rfl, rfl⟩
      · split
        · exact ⟨rfl, rfl⟩
        · exact ⟨rfl, rfl⟩

theorem resolveDependency_deliv_le (st : Store) (deal : Option String)
    (dd : Option String) (c : Bool) :
    st.deliverables.length ≤ (resolveDependency st deal dd c).store.deliverables.length := by
  unfold resolveDependency
  cases dd with
  | none => exact Nat.le_refl _
  | some d =>
    dsimp only
    split
    · exact Nat.le_refl _
    · split
      · exact Nat.le_refl _
      · split
        · simp [insertDeliverable]
        · exact Nat.le_refl _

theorem store_deliverable_journal (st : Store) (deal : Option String) (desc : String)
    (due agent : Option String) (dd : Option String) (c : Bool) :
    (store_deliverable st deal desc due agent dd c).store.journal = st.journal ∧
      (store_deliverable st deal desc due agent dd c).store.nextJournalId =
        st.nextJournalId := by
  have h := resolveDependency_journal st deal dd c
  exact ⟨h.1, h.2⟩

theorem store_deliverable_deliv_succ (st : Store) (deal : Option String) (desc : String)
    (due agent : Option String) (dd : Option String) (c : Bool) :
    st.deliverables.length + 1 ≤
      (store_deliverable st deal desc due agent dd c).store.deliverables.length := by
  have h := resolveDependency_deliv_le st deal dd c
  show st.deliverables.length + 1 ≤
    ((resolveDependency st deal dd c).store.deliverables ++ [_]).length
  rw [List.length_append]
  simpa using h

theorem ingestFrom_length (deal : Option String) (dates agents deps : List String)
    (confirm : Nat → Bool) :
    ∀ (tasks : List String) (st : Store) (k : Nat),
      (ingestFrom st deal tasks k dates agents deps confirm).2.length = tasks.length := by
  intro tasks
  induction tasks with
  | nil => intro st k; rfl
  | cons a rest ih =>
    intro st k
    simp [ingestFrom, ih]

theorem ingestFrom_journal (deal : Option String) (dates agents deps : List String)
    (confirm : Nat → Bool) :
    ∀ (tasks : List String) (st : Store) (k : Nat),
      (ingestFrom st deal tasks k dates agents deps confirm).1.journal = st.journal ∧
        (ingestFrom st deal tasks k dates agents deps confirm).1.nextJournalId =
          st.nextJournalId := by
  intro tasks
  induction tasks with
  | nil => intro st k; exact ⟨rfl, rfl⟩
  | cons a rest ih =>
    intro st k
    have h1 := store_deliverable_journal st deal a dates[k]? agents[k]? deps[k]? (confirm k)
    have h2 := ih (store_deliverable st deal a dates[k]? agents[k]? deps[k]? (confirm k)).store
      (k + 1)
    exact ⟨h2.1.trans h1.1, h2.2.trans h1.2⟩

theorem ingestFrom_deliv_le (deal : Option String) (dates agents deps : List String)
    (confirm : Nat → Bool) :
    ∀ (tasks : List String) (st : Store) (k : Nat),
      st.deliverables.length + tasks.length ≤
        (ingestFrom st deal tasks k dates agents deps confirm).1.deliverables.length := by
  intro tasks
  induction tasks with
  | nil => intro st k; simp [ingestFrom]
  | cons a rest ih =>
    intro st k
    have h1 := store_deliverable_deliv_succ st deal a dates[k]? agents[k]? deps[k]?
      (confirm k)
    have h2 := ih (store_deliverable st deal a dates[k]? agents[k]? deps[k]? (confirm k)).store
      (k + 1)
    simp only [ingestFrom, List.length_cons]
    omega

theorem ingestFrom_get (deal : Option String) (dates agents deps : List String)
    (confirm : Nat → Bool) :
    ∀ (tasks : List String) (st : Store) (k i : Nat) (t : String),
      tasks[i]? = some t →
      (ingestFrom st deal tasks k dates agents deps confirm).2[i]? =
        some (store_deliverable
          (ingestFrom st deal (tasks.take i) k dates agents deps confirm).1
          deal t dates[k + i]? agents[k + i]? deps[k + i]? (confirm (k + i))).mainRow := by
  intro tasks
  induction tasks with
  | nil => intro st k i t ht; simp at ht
  | cons a rest ih =>
    intro st k i t ht
    cases i with
    | zero =>
      rw [List.getElem?_cons_zero, Option.some.injEq] at ht
      subst ht
      simp [ingestFrom]
    | succ j =>
      rw [List.getElem?_cons_succ] at ht
      simp only [ingestFrom, List.take_succ_cons, List.getElem?_cons_succ]
      rw [ih _ (k + 1) j t ht]
      have harith : k + 1 + j = k + (j + 1) := by omega
      rw [harith]

/-! Claim theorems. -/

/-- C1, counterexample: the resolver's candidate set is NOT the set of
rows whose description contains the trimmed dependency description as
a case-sensitive literal substring.  With one row `draft nda` in
project `P`, resolving `Draft` matches it (SQLite `LIKE` is
case-insensitive on ASCII), while the case-sensitive reading matches
nothing. -/
theorem C1_counterexample :
    codeCandidates c1Store (some "P") "Draft" ≠
      specCandidates c1Store (some "P") "Draft" := by decide

/-- C1, amended: the candidate rows the resolver matches against are
the deliverables of the given project whose description matches the
SQL pattern built from the trimmed dependency description — a
case-insensitive (ASCII) containment check in which `%` and `_` act as
wildcards.  Scoping is exact: every candidate row's project equals the
given project.  When the trimmed description contains no wildcard, the
candidate set is exactly the rows of the project whose description
contains it as a case-insensitive literal substring. -/
theorem C1_theorem (st : Store) (deal : Option String) (d : String) :
    (∀ r ∈ codeCandidates st deal d, sqlEq r.deal_name deal = true) ∧
    (wildFree (pyStrip d) = true →
      codeCandidates st deal d =
        st.deliverables.filter
          (fun r =>
            sqlEq r.deal_name deal &&
              ciContainsL (pyStrip d).toList r.description.toList)) := by
  constructor
  · intro r hr
    have hmem := List.mem_filter.mp hr
    have h2 := hmem.2
    rw [rowMatches, Bool.and_eq_true] at h2
    exact h2.1
  · intro hw
    unfold codeCandidates matchingRows
    apply List.filter_congr
    intro r _
    rw [rowMatches]
    congr 1
    rw [sqliteLike_pattern]
    exact likeM_pattern_eq_ciContainsL (pyStrip d).toList hw r.description.toList

/-- C1, witness: on the counterexample store, with the wildcard-free
description `Draft`, the candidate set is the case-insensitive
containment filter. -/
theorem C1_witness :
    codeCandidates c1Store (some "P") "Draft" =
      c1Store.deliverables.filter
        (fun r =>
          sqlEq r.deal_name (some "P") &&
            ciContainsL (pyStrip "Draft").toList r.description.toList) :=
  (C1_theorem c1Store (some "P") "Draft").2 (by decide)

/-- C2, counterexample: a whitespace-only dependency description is
non-empty, so `if depends_on_desc:` does not short-circuit; it is
trimmed to the empty pattern `%%`, which matches every row of the
project, so resolution does NOT return null. -/
theorem C2_counterexample :
    pyStrip " " = "" ∧
    (store_deliverable c2Store (some "P") "task" none none (some " ")
        false).mainRow.depends_on_id ≠ none := by decide

/-- C2, amended: when the dependency description is null or the empty
string (Python falsiness, before any trimming), resolution returns
null immediately: the stored deliverable has no dependency, no prompt
is issued, no placeholder is created, and the store gains exactly the
deliverable being stored.  A whitespace-only description is not
short-circuited. -/
theorem C2_theorem (st : Store) (deal : Option String) (desc : String)
    (due agent : Option String) (dd : Option String) (confirm : Bool)
    (h : dd = none ∨ dd = some "") :
    (store_deliverable st deal desc due agent dd confirm).mainRow.depends_on_id = none ∧
    (store_deliverable st deal desc due agent dd confirm).prompted = false ∧
    (store_deliverable st deal desc due agent dd confirm).placeholderId = none ∧
    (store_deliverable st deal desc due agent dd confirm).store.deliverables =
      st.deliverables ++ [(store_deliverable st deal desc due agent dd confirm).mainRow] ∧
    (store_deliverable st deal desc due agent dd confirm).store.journal = st.journal := by
  rcases h with h | h <;> subst h <;>
    simp [store_deliverable, resolveDependency, insertDeliverable]

/-- C2, witness: storing a deliverable with no dependency description
into the empty store. -/
theorem C2_witness :
    (store_deliverable emptyStore (some "P") "t" none none none true).mainRow.depends_on_id =
      none ∧
    (store_deliverable emptyStore (some "P") "t" none none none true).prompted = false ∧
    (store_deliverable emptyStore (some "P") "t" none none none true).placeholderId = none ∧
    (store_deliverable emptyStore (some "P") "t" none none none true).store.deliverables =
      emptyStore.deliverables ++
        [(store_deliverable emptyStore (some "P") "t" none none none true).mainRow] ∧
    (store_deliverable emptyStore (some "P") "t" none none none true).store.journal =
      emptyStore.journal :=
  C2_theorem emptyStore (some "P") "t" none none none true (Or.inl rfl)

/-- C10: the journal row persisted by `store_journal_entry` is
independent of the `tags` and `metadata` arguments — two calls that
agree on project name, entry type and raw note produce identical store
states whatever the tags and metadata are (only `deal_name`,
`entry_type` and `raw_note` are persisted). -/
theorem C10_theorem (st : Store) (deal_name entry_type raw_note : Option String)
    (tags1 tags2 : String) (m1 m2 : Metadata) :
    store_journal_entry st deal_name entry_type raw_note tags1 m1 =
      store_journal_entry st deal_name entry_type raw_note tags2 m2 := rfl

/-- C3: when the dependency description matches zero existing rows, a
warning and prompt are issued; if the user declines, resolution
returns null and the store gains only the deliverable being stored;
if the user accepts, exactly one placeholder row is created — with
description equal to the dependency description, null due date, null
owner and null dependency — and its freshly assigned id becomes the
stored deliverable's `depends_on_id`. -/
theorem C3_theorem (st : Store) (deal : Option String) (desc : String)
    (due agent : Option String) (d : String) (confirm : Bool)
    (hd : d ≠ "")
    (hz : findFirstMatch st deal (likePattern (pyStrip d)) = none) :
    (store_deliverable st deal desc due agent (some d) confirm).prompted = true ∧
    (confirm = false →
      (store_deliverable st deal desc due agent (some d) confirm).mainRow.depends_on_id =
        none ∧
      (store_deliverable st deal desc due agent (some d) confirm).placeholderId = none ∧
      (store_deliverable st deal desc due agent (some d) confirm).store.deliverables =
        st.deliverables ++
          [(store_deliverable st deal desc due agent (some d) confirm).mainRow]) ∧
    (confirm = true →
      (store_deliverable st deal desc due agent (some d) confirm).placeholderId =
        some st.nextDeliverableId ∧
      (store_deliverable st deal desc due agent (some d) confirm).mainRow.depends_on_id =
        some st.nextDeliverableId ∧
      (store_deliverable st deal desc due agent (some d) confirm).store.deliverables =
        st.deliverables ++
          [{ id := st.nextDeliverableId, deal_name := deal, description := d,
             due_date := none, agent := none, depends_on_id := none },
           (store_deliverable st deal desc due agent (some d) confirm).mainRow]) := by
  cases confirm <;>
    simp [store_deliverable, resolveDependency, insertDeliverable, hd, hz]

/-- C3, witness: on the empty store, storing a deliverable whose
dependency description `dep x` matches nothing, with creation
accepted: the placeholder gets id 1 and the deliverable's dependency
resolves to it. -/
theorem C3_witness :
    (store_deliverable emptyStore (some "P") "t" none none (some "dep x") true).placeholderId =
      some emptyStore.nextDeliverableId ∧
    (store_deliverable emptyStore (some "P") "t" none none (some "dep x")
        true).mainRow.depends_on_id = some emptyStore.nextDeliverableId ∧
    (store_deliverable emptyStore (some "P") "t" none none (some "dep x")
        true).store.deliverables =
      emptyStore.deliverables ++
        [{ id := emptyStore.nextDeliverableId, deal_name := some "P", description := "dep x",
           due_date := none, agent := none, depends_on_id := none },
         (store_deliverable emptyStore (some "P") "t" none none (some "dep x")
            true).mainRow] :=
  (C3_theorem emptyStore (some "P") "t" none none "dep x" true (by decide) (by decide)).2.2 rfl

/-- C4: when two or more rows of the project match the dependency
description, resolution returns the id of the first matching row in
storage (insertion) order — which, when row ids increase along the
store as they do for every store the program builds, is the
earliest-inserted match — it issues no warning and no prompt, and it
creates no placeholder.  Determinism on identical store states is
immediate since the resolver is a function of the store. -/
theorem C4_theorem (st : Store) (deal : Option String) (desc : String)
    (due agent : Option String) (d : String) (confirm : Bool)
    (hd : d ≠ "")
    (hids : st.deliverables.Pairwise (fun a b => a.id < b.id))
    (h2 : 2 ≤ (matchingRows st deal (likePattern (pyStrip d))).length) :
    ∃ m, (matchingRows st deal (likePattern (pyStrip d))).head? = some m ∧
      (store_deliverable st deal desc due agent (some d) confirm).mainRow.depends_on_id =
        some m.id ∧
      (∀ q ∈ matchingRows st deal (likePattern (pyStrip d)), m.id ≤ q.id) ∧
      (store_deliverable st deal desc due agent (some d) confirm).prompted = false ∧
      (store_deliverable st deal desc due agent (some d) confirm).placeholderId = none := by
  have hp : (matchingRows st deal (likePattern (pyStrip d))).Pairwise
      (fun a b => a.id < b.id) := hids.filter _
  cases hm : matchingRows st deal (likePattern (pyStrip d)) with
  | nil => rw [hm] at h2; simp at h2
  | cons m tl =>
    have hf : findFirstMatch st deal (likePattern (pyStrip d)) = some m.id := by
      unfold findFirstMatch
      rw [hm]
      rfl
    refine ⟨m, rfl, ?_, ?_, ?_, ?_⟩
    · simp [store_deliverable, resolveDependency, insertDeliverable, hd, hf]
    · intro q hq
      rw [hm] at hp
      rcases List.mem_cons.mp hq with h | h
      · exact le_of_eq (by rw [h])
      · exact le_of_lt ((List.pairwise_cons.mp hp).1 q h)
    · simp [store_deliverable, resolveDependency, hd, hf]
    · simp [store_deliverable, resolveDependency, hd, hf]

/-- C4, witness: with rows `alpha 1` (id 1) and `alpha 2` (id 2) both
matching `alpha`, resolution silently links to id 1. -/
theorem C4_witness :
    (store_deliverable c4Store (some "P") "t" none none (some "alpha")
        false).mainRow.depends_on_id = some 1 ∧
    (store_deliverable c4Store (some "P") "t" none none (some "alpha")
        false).prompted = false ∧
    (store_deliverable c4Store (some "P") "t" none none (some "alpha")
        false).placeholderId = none := by
  obtain ⟨m, hm, h1, _, h4, h5⟩ :=
    C4_theorem c4Store (some "P") "t" none none "alpha" false (by decide) (by decide)
      (by decide)
  have hval : (matchingRows c4Store (some "P") (likePattern (pyStrip "alpha"))).head? =
      some ⟨1, some "P", "alpha 1", none, none, none⟩ := by decide
  have hm1 : m = ⟨1, some "P", "alpha 1", none, none, none⟩ :=
    Option.some_injective _ (hm.symm.trans hval)
  rw [hm1] at h1
  exact ⟨h1, h4, h5⟩

/-- C5, counterexample: after inserting a deliverable `a` into a
project that already holds `ab`, searching the project for
descriptions containing `a` returns the older row `ab` first — the
newly inserted row is neither the sole nor the first match. -/
theorem C5_counterexample :
    ¬ (find_by_description
          (store_deliverable c5Store (some "P") "a" none none none true).store
          (some "P") "a" =
        [(store_deliverable c5Store (some "P") "a" none none none true).mainRow] ∨
      (find_by_description
          (store_deliverable c5Store (some "P") "a" none none none true).store
          (some "P") "a").head? =
        some (store_deliverable c5Store (some "P") "a" none none none true).mainRow) := by
  decide

/-- C5, amended: inserting a deliverable and then searching the same
project for its exact description always yields the new row among the
matches: the result is the matching earlier rows (in storage order)
followed by the new row, so the new row is the sole — hence first —
match exactly when no earlier row of the store also matches the
pattern. -/
theorem C5_theorem (st : Store) (p : String) (desc : String) (due agent : Option String)
    (dd : Option String) (confirm : Bool) :
    find_by_description (store_deliverable st (some p) desc due agent dd confirm).store
        (some p) desc =
      (resolveDependency st (some p) dd confirm).store.deliverables.filter
          (rowMatches (some p) (likePattern desc)) ++
        [(store_deliverable st (some p) desc due agent dd confirm).mainRow] ∧
    ((resolveDependency st (some p) dd confirm).store.deliverables.filter
        (rowMatches (some p) (likePattern desc)) = [] →
      find_by_description (store_deliverable st (some p) desc due agent dd confirm).store
          (some p) desc =
        [(store_deliverable st (some p) desc due agent dd confirm).mainRow]) := by
  have hmain : rowMatches (some p) (likePattern desc)
      (store_deliverable st (some p) desc due agent dd confirm).mainRow = true := by
    show (sqlEq (some p) (some p) && sqliteLike (likePattern desc) desc) = true
    simp [sqlEq, sqliteLike_self]
  have h1 : find_by_description
      (store_deliverable st (some p) desc due agent dd confirm).store (some p) desc =
      (resolveDependency st (some p) dd confirm).store.deliverables.filter
          (rowMatches (some p) (likePattern desc)) ++
        [(store_deliverable st (some p) desc due agent dd confirm).mainRow] := by
    show ((resolveDependency st (some p) dd confirm).store.deliverables ++
        [(store_deliverable st (some p) desc due agent dd confirm).mainRow]).filter
          (rowMatches (some p) (likePattern desc)) = _
    rw [List.filter_append]
    simp [hmain]
  exact ⟨h1, fun h => by rw [h1, h, List.nil_append]⟩

/-- C5, witness: inserting `a` into the empty store and searching for
`a` returns exactly the new row. -/
theorem C5_witness :
    find_by_description (store_deliverable emptyStore (some "P") "a" none none none true).store
        (some "P") "a" =
      [(store_deliverable emptyStore (some "P") "a" none none none true).mainRow] :=
  (C5_theorem emptyStore "P" "a" none none none true).2 (by decide)

/-- C6: ingesting positionally aligned sequences creates one
deliverable per task, in task order: the row created for task `i` has
description `tasks[i]`, due date `dates[i]` when `i < len(dates)` and
null otherwise, owner `agents[i]` when `i < len(agents)` and null
otherwise, and its dependency is resolved from `deps[i]` when
`i < len(deps)` and from none otherwise, against the store as it
stands after the first `i` tasks. -/
theorem C6_theorem (st : Store) (deal : Option String)
    (tasks dates agents deps : List String) (confirm : Nat → Bool) (i : Nat)
    (row : Deliverable)
    (h : (ingest st deal tasks dates agents deps confirm).2[i]? = some row) :
    (ingest st deal tasks dates agents deps confirm).2.length = tasks.length ∧
    tasks[i]? = some row.description ∧
    row.due_date = dates[i]? ∧
    row.agent = agents[i]? ∧
    row.depends_on_id =
      (resolveDependency
        (ingestFrom st deal (tasks.take i) 0 dates agents deps confirm).1
        deal deps[i]? (confirm i)).depId := by
  have hlen := ingestFrom_length deal dates agents deps confirm tasks st 0
  have hi : i < tasks.length := by
    have hlt := (List.getElem?_eq_some.mp h).1
    rw [ingest, hlen] at hlt
    exact hlt
  have ht : tasks[i]? = some (tasks.get ⟨i, hi⟩) := List.getElem?_eq_getElem hi
  have hg := ingestFrom_get deal dates agents deps confirm tasks st 0 i (tasks.get ⟨i, hi⟩) ht
  rw [ingest] at h
  rw [hg, Option.some.injEq] at h
  subst h
  refine ⟨by rw [ingest, hlen], ?_, ?_, ?_, ?_⟩
  · rw [ht]
    rfl
  · show (dates[0 + i]? : Option String) = dates[i]?
    rw [Nat.zero_add]
  · show (agents[0 + i]? : Option String) = agents[i]?
    rw [Nat.zero_add]
  · show (resolveDependency _ deal deps[0 + i]? (confirm (0 + i))).depId = _
    rw [Nat.zero_add]

/-- C6, witness: ingesting 3 tasks with 1 date, 0 owners and 0
dependency descriptions creates 3 rows; the second row (index 1) is
undated, unassigned, and dependency-free. -/
theorem C6_witness :
    (ingest emptyStore (some "Alpha") ["a", "b", "c"] ["2025-01-10"] [] []
        (fun _ => false)).2.length = (["a", "b", "c"] : List String).length ∧
    (["a", "b", "c"] : List String)[1]? =
      some (Deliverable.description ⟨2, some "Alpha", "b", none, none, none⟩) ∧
    (Deliverable.due_date ⟨2, some "Alpha", "b", none, none, none⟩) =
      (["2025-01-10"] : List String)[1]? ∧
    (Deliverable.agent ⟨2, some "Alpha", "b", none, none, none⟩) =
      ([] : List String)[1]? ∧
    (Deliverable.depends_on_id ⟨2, some "Alpha", "b", none, none, none⟩) =
      (resolveDependency
        (ingestFrom emptyStore (some "Alpha") (["a", "b", "c"].take 1) 0 ["2025-01-10"] [] []
          (fun _ => false)).1
        (some "Alpha") ([] : List String)[1]? false).depId :=
  C6_theorem emptyStore (some "Alpha") ["a", "b", "c"] ["2025-01-10"] [] []
    (fun _ => false) 1 ⟨2, some "Alpha", "b", none, none, none⟩ (by decide)

/-- C7: tasks are processed in input order and each task's row is
inserted before the next task's dependency is resolved: if, in the
store as it stands after the first `i + 1` tasks of the batch, the
first row matching task `i + 1`'s dependency description is the row
created for task `i`, then task `i + 1`'s `depends_on_id` is the id
assigned to task `i` in the same batch. -/
theorem C7_theorem (st : Store) (deal : Option String)
    (tasks dates agents deps : List String) (confirm : Nat → Bool) (i : Nat)
    (d : String) (rowi rownext : Deliverable)
    (hd : deps[i + 1]? = some d) (hne : d ≠ "")
    (hrowi : (ingestFrom st deal (tasks.take (i + 1)) 0 dates agents deps
        confirm).2[i]? = some rowi)
    (hfirst : findFirstMatch
        (ingestFrom st deal (tasks.take (i + 1)) 0 dates agents deps confirm).1
        deal (likePattern (pyStrip d)) = some rowi.id)
    (hnext : (ingest st deal tasks dates agents deps confirm).2[i + 1]? = some rownext) :
    rownext.depends_on_id = some rowi.id := by
  have hi : i + 1 < tasks.length := by
    have hlt := (List.getElem?_eq_some.mp hnext).1
    rw [ingest, ingestFrom_length deal dates agents deps confirm tasks st 0] at hlt
    exact hlt
  have ht : tasks[i + 1]? = some (tasks.get ⟨i + 1, hi⟩) := List.getElem?_eq_getElem hi
  have hg := ingestFrom_get deal dates agents deps confirm tasks st 0 (i + 1)
    (tasks.get ⟨i + 1, hi⟩) ht
  rw [ingest] at hnext
  rw [hg, Option.some.injEq] at hnext
  subst hnext
  show (resolveDependency _ deal deps[0 + (i + 1)]? (confirm (0 + (i + 1)))).depId =
    some rowi.id
  rw [Nat.zero_add, hd]
  simp [resolveDependency, hne, hfirst]

/-- C7, witness: in a two-task batch where the second task's
dependency description is the first task's description, the second
row's dependency resolves to the first row's id (assigned in the same
batch). -/
theorem C7_witness :
    Deliverable.depends_on_id ⟨2, some "A", "Sign NDA", none, none, some 1⟩ =
      some (Deliverable.id ⟨1, some "A", "Draft NDA", none, none, none⟩) :=
  C7_theorem emptyStore (some "A") ["Draft NDA", "Sign NDA"] [] [] ["", "Draft NDA"]
    (fun _ => false) 0 "Draft NDA" ⟨1, some "A", "Draft NDA", none, none, none⟩
    ⟨2, some "A", "Sign NDA", none, none, some 1⟩
    (by decide) (by decide) (by decide) (by decide) (by decide)

/-- C8, counterexample: ingesting an entry whose extracted project
name is the empty string is NOT rejected — `log` writes a journal row
and a deliverable row anyway. -/
theorem C8_counterexample :
    (logOp emptyStore c8Meta (fun _ => false)).journal ≠ emptyStore.journal ∧
    (logOp emptyStore c8Meta (fun _ => false)).deliverables ≠ emptyStore.deliverables := by
  decide

/-- C8, amended: `log` performs no input validation: for every
metadata record — including one with an empty or missing project
name — it appends exactly one journal row recording the extracted
fields as given, and at least one deliverable row per extracted task.
(Only `batch_log` skips an entry, when its raw text lacks a
`Project <name>:` header, before any store mutation for that
entry.) -/
theorem C8_theorem (st : Store) (m : Metadata) (confirm : Nat → Bool) :
    (logOp st m confirm).journal =
      st.journal ++ [⟨st.nextJournalId, m.deal_name, m.entry_type, m.notes⟩] ∧
    st.deliverables.length + m.deliverables.length ≤
      (logOp st m confirm).deliverables.length := by
  constructor
  · have hj := ingestFrom_journal m.deal_name m.dates m.agents m.dependencies confirm
      m.deliverables (store_journal_entry st m.deal_name m.entry_type m.notes "" m) 0
    rw [logOp, ingest]
    exact hj.1
  · have hD := ingestFrom_deliv_le m.deal_name m.dates m.agents m.dependencies confirm
      m.deliverables (store_journal_entry st m.deal_name m.entry_type m.notes "" m) 0
    rw [logOp, ingest]
    exact hD

/-- C9: viewing a project's schedule is total — it renders exactly one
line per deliverable of the project, over exactly the project's rows —
the rows are ordered by the due-date key (with null dates sorting
first and rendered as the explicit `No date` marker instead of a
date), and every row with a set dependency id is rendered with that
id's description looked up among the same project's just-loaded rows,
falling back to the sentinel `Unknown` when the id is not among them.
The hypothesis — every stored dependency id is nonzero — holds of all
stores the program builds, since SQLite row ids start at 1. -/
theorem C9_theorem (st : Store) (project : String)
    (hdep : st.deliverables.all (fun r => r.depends_on_id.getD 1 != 0) = true) :
    (scheduleProject st project).length = (projectRows st project).length ∧
    (scheduleRows st project).Perm (projectRows st project) ∧
    List.Pairwise dueRel (scheduleRows st project) ∧
    (∀ r ∈ scheduleRows st project, r.due_date = none →
      renderRow (projectRows st project) r =
        "No date" ++ ": " ++ r.description ++ depNote (projectRows st project) r) ∧
    (∀ r ∈ scheduleRows st project, ∀ d, r.depends_on_id = some d →
      depNote (projectRows st project) r =
        "  ← depends on: " ++ ((lookupDesc (projectRows st project) d).getD "Unknown")) ∧
    (∀ r ∈ scheduleRows st project, ∀ d, r.depends_on_id = some d →
      (∀ q ∈ projectRows st project, q.id ≠ d) →
        depNote (projectRows st project) r = "  ← depends on: Unknown") := by
  have hnotzero : ∀ r ∈ scheduleRows st project, ∀ d, r.depends_on_id = some d →
      d ≠ 0 := by
    intro r hr d hd2
    have hr' : r ∈ projectRows st project := (List.mem_insertionSort dueRel).mp hr
    have hrst : r ∈ st.deliverables := (List.mem_filter.mp hr').1
    have hb := List.all_eq_true.mp hdep r hrst
    rw [hd2] at hb
    simpa using hb
  have hdepEq : ∀ r ∈ scheduleRows st project, ∀ d, r.depends_on_id = some d →
      depNote (projectRows st project) r =
        "  ← depends on: " ++ ((lookupDesc (projectRows st project) d).getD "Unknown") := by
    intro r hr d hd2
    have hd0 := hnotzero r hr d hd2
    simp only [depNote, hd2]
    rw [if_neg hd0]
  refine ⟨?_, List.perm_insertionSort dueRel _, List.sorted_insertionSort dueRel _,
    ?_, hdepEq, ?_⟩
  · show ((scheduleRows st project).map _).length = _
    rw [List.length_map, scheduleRows, List.length_insertionSort]
  · intro r _ hnone
    rw [renderRow, hnone]
    rfl
  · intro r hr d hd2 hnone
    have hl : lookupDesc (projectRows st project) d = none := by
      rw [lookupDesc]
      have hfil : (projectRows st project).filter (fun q => q.id == d) = [] := by
        rw [List.filter_eq_nil_iff]
        intro q hq
        simpa using hnone q hq
      rw [hfil]
      rfl
    rw [hdepEq r hr d hd2, hl]
    rfl

/-- C9, witness: on a project with an undated row, a dated row
depending on it, and a dated row whose dependency id is dangling, the
view renders one line per row in sorted order, marks the undated row
`No date`, renders the resolved dependency label, and falls back to
`Unknown` for the dangling id. -/
theorem C9_witness :
    (scheduleProject c9Store "P").length = (projectRows c9Store "P").length ∧
    List.Pairwise dueRel (scheduleRows c9Store "P") ∧
    renderRow (projectRows c9Store "P") ⟨1, some "P", "Draft NDA", none, none, none⟩ =
      "No date" ++ ": " ++ "Draft NDA" ++
        depNote (projectRows c9Store "P") ⟨1, some "P", "Draft NDA", none, none, none⟩ ∧
    depNote (projectRows c9Store "P")
        ⟨2, some "P", "Sign NDA", some "2025-01-10", none, some 1⟩ =
      "  ← depends on: " ++ ((lookupDesc (projectRows c9Store "P") 1).getD "Unknown") ∧
    depNote (projectRows c9Store "P")
        ⟨3, some "P", "Review", some "2025-02-01", none, some 99⟩ =
      "  ← depends on: Unknown" := by
  have h := C9_theorem c9Store "P" (by decide)
  refine ⟨h.1, h.2.2.1, ?_, ?_, ?_⟩
  · exact h.2.2.2.1 _ (by decide) rfl
  · exact h.2.2.2.2.1 _ (by decide) 1 rfl
  · exact h.2.2.2.2.2 _ (by decide) 99 rfl (by decide)

end DealTracker
